import Mathlib

/-
Verification of the row-representation core (`resultproxy.c`): the `BaseRow`
type (construction, positional and keyed access, attribute access, hash),
the `tuplegetter` key projector, and the `safe_rowproxy_reconstructor`
deserialization entry point.  Python objects are embedded shallowly: scalar
values become `PyVal`, exceptions become `PyErr`, fallible C functions
(returning NULL with an exception set) become `Except PyErr`.
-/

set_option autoImplicit false

/-- Scalar Python values as they occur in rows and key maps: `None`,
integers, strings, and opaque column objects (identified by a tag). -/
inductive PyVal where
  | none
  | int (n : Int)
  | str (s : String)
  | obj (id : Nat)
deriving DecidableEq

/-- `PyObject_Str` on the scalar universe: display form of a value. -/
def pyStr : PyVal → String
  | PyVal.none => "None"
  | PyVal.int n => toString n
  | PyVal.str s => s
  | PyVal.obj i => "<column " ++ toString i ++ ">"

/-- A string is ASCII-encodable iff every code point is below 128
(the success condition of `PyUnicode_AsASCIIString`). -/
def isAsciiStr (s : String) : Bool := s.toList.all (fun c => c.toNat < 128)

/-- The `%.200s` truncation applied by `PyErr_Format` to embedded C strings. -/
def fmt200 (s : String) : String := String.mk (s.toList.take 200)

/-- Python exceptions raised by this module or passing through it. -/
inductive PyErr where
  | runtimeError (msg : String)
  | typeError (msg : String)
  | indexError (msg : String)
  | keyError (key : PyVal)
  | invalidRequestError (msg : String)
  | attributeError (msg : String)
  | unicodeEncodeError
  | otherError (tag : Nat)
deriving DecidableEq

/-- Equality of `Except` results is decidable when both components are. -/
instance exceptDecEq {ε α : Type} [DecidableEq ε] [DecidableEq α] :
    DecidableEq (Except ε α) := fun x y =>
  match x, y with
  | Except.ok a, Except.ok b => decidable_of_iff (a = b) (by simp)
  | Except.error a, Except.error b => decidable_of_iff (a = b) (by simp)
  | Except.ok _, Except.error _ => Decidable.isFalse (by simp)
  | Except.error _, Except.ok _ => Decidable.isFalse (by simp)

/-- `PyUnicode_AsASCIIString`: the identity on ASCII strings, a
`UnicodeEncodeError` otherwise. -/
def asciiEncode (s : String) : Except PyErr String :=
  if isAsciiStr s then Except.ok s else Except.error PyErr.unicodeEncodeError

/-- Does `needle` start `hay`? (helper for substring occurrence). -/
def charsStartWith : List Char → List Char → Bool
  | [], _ => true
  | _ :: _, [] => false
  | a :: as, b :: bs => a == b && charsStartWith as bs

/-- Does `needle` occur contiguously inside `hay`? -/
def charsHasSub (needle : List Char) : List Char → Bool
  | [] => charsStartWith needle []
  | b :: bs => charsStartWith needle (b :: bs) || charsHasSub needle bs

/-- Does the string `needle` occur inside the string `hay`?  Used to state
whether an error message embeds a given piece of text. -/
def strEmbeds (needle hay : String) : Bool := charsHasSub needle.toList hay.toList

/-- A keymap record, as accessed by the C code: `record[0]` is the index
(`Py_None` = ambiguous sentinel), `record[1]` the column object, and
`record[2]` the ambiguity-context value rendered into diagnostics. -/
structure Record where
  index : Option Int
  obj : PyVal
  context : PyVal
deriving DecidableEq

/-- The keymap dict: key → record (`PyDict_GetItem` becomes `dictGet`). -/
abbrev KeyMap := List (PyVal × Record)

/-- `PyDict_GetItem`: first entry with an equal key, if any. -/
def dictGet (km : KeyMap) (k : PyVal) : Option Record :=
  match km.find? (fun e => decide (e.1 = k)) with
  | some e => some e.2
  | Option.none => Option.none

/-- The external Metadata collaborator (`parent`): the Row consumes only its
`_key_fallback` method, which resolves keys missing from the primary keymap
and may fail (with a `KeyError` on a miss). -/
structure ResultMetaData where
  keyFallback : PyVal → Except PyErr Record

/-- The `BaseRow` struct: `parent` (Metadata handle), `row` (the processed
value tuple) and `keymap`. -/
structure BaseRow where
  parent : ResultMetaData
  row : List PyVal
  keymap : KeyMap

/-- A per-column processor: an opaque caller-supplied transform that may
fail with an arbitrary exception. -/
abbrev Proc := PyVal → Except PyErr PyVal

/-- Whether applying an optional processor to a value succeeds (an absent
processor always "succeeds": the raw value is kept). -/
def procOk (p : Option Proc) (v : PyVal) : Bool :=
  match p with
  | Option.none => true
  | some f => (f v).isOk

/-- The processing loop of `BaseRow_init`: walk `processors` and the raw
values in parallel from position 0, applying each present processor and
keeping the raw value under an absent (`Py_None`) processor; the first
processor failure aborts the loop and propagates its exception verbatim.
(`BaseRow_init` only reaches this loop with lists of equal length.) -/
def applyProcessors : List (Option Proc) → List PyVal → Except PyErr (List PyVal)
  | [], _ => Except.ok []
  | _ :: _, [] => Except.ok []
  | Option.none :: ps, v :: vs =>
    match applyProcessors ps vs with
    | Except.error e => Except.error e
    | Except.ok ws => Except.ok (v :: ws)
  | some f :: ps, v :: vs =>
    match f v with
    | Except.error e => Except.error e
    | Except.ok w =>
      match applyProcessors ps vs with
      | Except.error e => Except.error e
      | Except.ok ws => Except.ok (w :: ws)

/-- `BaseRow_init`: checks that the raw-value count equals the processor
count (else a `RuntimeError` carrying both lengths), then builds the value
tuple through `applyProcessors` and stores `parent`, the tuple and `keymap`.
(The dynamic `keymap must be a dict` type check is discharged by typing.) -/
def BaseRow_init (parent : ResultMetaData) (processors : List (Option Proc))
    (keymap : KeyMap) (row : List PyVal) : Except PyErr BaseRow :=
  if row.length = processors.length then
    match applyProcessors processors row with
    | Except.error e => Except.error e
    | Except.ok values => Except.ok ⟨parent, values, keymap⟩
  else
    Except.error (PyErr.runtimeError
      ("number of values in row (" ++ toString row.length ++
       ") differ from number of column processors (" ++
       toString processors.length ++ ")"))

/-- `BaseRow_getitem`: `PyTuple_GetItem` on the value tuple — a genuine
in-range index yields the value, anything else an `IndexError`. -/
def BaseRow_getitem (r : BaseRow) (i : Int) : Except PyErr PyVal :=
  if 0 ≤ i ∧ i < (r.row.length : Int) then
    Except.ok (r.row.getD i.toNat PyVal.none)
  else
    Except.error (PyErr.indexError "tuple index out of range")

/-- The message formatted for an ambiguous key, from the already
ASCII-encoded rendering of the record's ambiguity-context. -/
def ambiguousMessage (t : String) : String :=
  "Ambiguous column name '" ++ fmt200 t ++ "' in result set column descriptions"

/-- The tail of `BaseRow_getitem_by_object` once a record is in hand:
`record[0] = Py_None` marks an ambiguous key — `str(record[2])` is rendered,
ASCII-encoded (a non-encodable context propagates the `UnicodeEncodeError`)
and embedded into an `InvalidRequestError`; otherwise the index is used for
positional access. -/
def resolveRecord (r : BaseRow) (rcd : Record) : Except PyErr PyVal :=
  match rcd.index with
  | Option.none =>
    match asciiEncode (pyStr rcd.context) with
    | Except.error e => Except.error e
    | Except.ok t => Except.error (PyErr.invalidRequestError (ambiguousMessage t))
  | some idx => BaseRow_getitem r idx

/-- `BaseRow_getitem_by_object`: look the key up in the keymap dict; on a
miss delegate to the parent's `_key_fallback` (whose failure propagates);
then resolve the record. -/
def BaseRow_getitem_by_object (r : BaseRow) (key : PyVal) : Except PyErr PyVal :=
  match dictGet r.keymap key with
  | some rcd => resolveRecord r rcd
  | Option.none =>
    match r.parent.keyFallback key with
    | Except.error e => Except.error e
    | Except.ok rcd => resolveRecord r rcd

/-- `BaseRow_subscript_impl`: an exact integer key is normalized when
negative (one addition of the length) and accessed positionally; every
other key goes through `BaseRow_getitem_by_object`.  (Slice objects are
outside the scalar key universe modelled here.) -/
def BaseRow_subscript_impl (r : BaseRow) (key : PyVal) : Except PyErr PyVal :=
  match key with
  | PyVal.int i =>
    BaseRow_getitem r (if i < 0 then i + (r.row.length : Int) else i)
  | k => BaseRow_getitem_by_object r k

/-- The attributes resolved by generic attribute lookup on the C type
object: the three getset descriptors and the four methods of
`BaseRowType`. -/
def directFields : List String :=
  ["_parent", "_data", "_keymap",
   "_values_impl", "__reduce__", "_get_by_key_impl", "_get_by_key_impl_mapping"]

/-- What attribute access can produce: a descriptor/method found by generic
lookup, or a column value found by keyed lookup. -/
inductive GetattroResult where
  | descriptor (nm : String)
  | column (v : PyVal)
deriving DecidableEq

/-- The `AttributeError` message formatted by `BaseRow_getattro` for a
keyed-lookup miss (after ASCII-encoding the name). -/
def attrErrMsg (s : String) : String :=
  "Could not locate column in row for column '" ++ fmt200 s ++ "'"

/-- `BaseRow_getattro`: generic attribute lookup first; on its
`AttributeError` the name is retried as a mapping key.  A `KeyError` from
that retry is remapped to an `AttributeError` embedding the ASCII-encoded
name — the encoding itself may fail, in which case the
`UnicodeEncodeError` is what propagates; every other failure kind passes
through unchanged. -/
def BaseRow_getattro (r : BaseRow) (nm : String) : Except PyErr GetattroResult :=
  if nm ∈ directFields then Except.ok (GetattroResult.descriptor nm)
  else
    match BaseRow_subscript_impl r (PyVal.str nm) with
    | Except.ok v => Except.ok (GetattroResult.column v)
    | Except.error e =>
      match e with
      | PyErr.keyError _ =>
        match asciiEncode nm with
        | Except.ok t => Except.error (PyErr.attributeError (attrErrMsg t))
        | Except.error ee => Except.error ee
      | _ => Except.error e

/-- A deterministic structural hash of a scalar value (the element hashes
entering the tuple hash). -/
def pyHash : PyVal → Int
  | PyVal.none => 1
  | PyVal.int n => n
  | PyVal.str s => Int.ofNat (s.toList.foldl (fun h c => h * 31 + c.toNat) 7)
  | PyVal.obj i => Int.ofNat i

/-- The tuple hash: a structural combination of the element hashes, a
function of the value sequence alone. -/
def pyHashList (vs : List PyVal) : Int :=
  vs.foldl (fun h v => h * 1000003 + pyHash v) 5381

/-- `BaseRow_hash`: `PyObject_Hash(self->row)` — the hash of the value
tuple; `parent` and `keymap` never enter it. -/
def BaseRow_hash (r : BaseRow) : Int := pyHashList r.row

/-- Modelled from the spec: `BaseRowType` leaves `tp_richcompare` at 0, so
the row equality operation itself is not in `src/` (it lives in the Python
`Row` layer); the spec defines `equals(other)` as structural equality of
the value tuples only. -/
def BaseRow_equals (a b : BaseRow) : Bool := decide (a.row = b.row)

/-- The `tuplegetter` struct: the stored key tuple and its size. -/
structure tuplegetterobject where
  nitems : Nat
  item : List PyVal

/-- `tuplegetter_new`: stores the argument tuple as-is and its size —
no emptiness (or any other) check is performed. -/
def tuplegetter_new (args : List PyVal) : tuplegetterobject :=
  ⟨args.length, args⟩

/-- The loop of `tuplegetter_call`: for each stored key in order, call the
row's `_get_by_key_impl_mapping`; the first failure discards the partial
tuple and propagates. -/
def tuplegetter_loop (r : BaseRow) : List PyVal → Except PyErr (List PyVal)
  | [] => Except.ok []
  | k :: ks =>
    match BaseRow_subscript_impl r k with
    | Except.error e => Except.error e
    | Except.ok v =>
      match tuplegetter_loop r ks with
      | Except.error e => Except.error e
      | Except.ok vs => Except.ok (v :: vs)

/-- `tuplegetter_call`: builds the output tuple by the loop over the stored
keys. -/
def tuplegetter_call (tg : tuplegetterobject) (r : BaseRow) : Except PyErr (List PyVal) :=
  tuplegetter_loop r tg.item

/-- The fields of a `BaseRow` instance after `__setstate__` has run:
each C struct slot is either still NULL (`none`) or restored. -/
structure RestoredState where
  parent : Option ResultMetaData
  row : Option (List PyVal)
  keymap : Option KeyMap

/-- The validation message of `safe_rowproxy_reconstructor`. -/
def reconstructErrMsg : String :=
  "__setstate__ for BaseRow subclasses must set values for parent, row, and keymap"

/-- `safe_rowproxy_reconstructor`: allocate, run the externally supplied
`__setstate__` (whose failure propagates), then validate that all of
`parent`, `row` and `keymap` were set — if any is still NULL the instance
is dropped and a `RuntimeError` naming the obligation is raised. -/
def safe_rowproxy_reconstructor (setstate : PyVal → Except PyErr RestoredState)
    (state : PyVal) : Except PyErr BaseRow :=
  match setstate state with
  | Except.error e => Except.error e
  | Except.ok st =>
    match st.parent, st.row, st.keymap with
    | some p, some r, some k => Except.ok ⟨p, r, k⟩
    | _, _, _ => Except.error (PyErr.runtimeError reconstructErrMsg)

/-- The public operations callable on a constructed `BaseRow`, as exposed
by `BaseRowType` (sequence/mapping slots, hash, iteration, the getset
descriptors and the pickling export), plus the spec-level equality. -/
inductive RowOp where
  | opGetitem (i : Int)
  | opSubscript (key : PyVal)
  | opIter
  | opLength
  | opHash
  | opEquals (other : BaseRow)
  | opGetparent
  | opGetdata
  | opGetkeymap
  | opReduce
  | opSetparent (m : ResultMetaData)
  | opSetdata (vs : List PyVal)
  | opSetkeymap (km : KeyMap)

/-- Whether an operation is one of the three getset restore setters
(`_parent`/`_data`/`_keymap` assignment). -/
def RowOp.isRestoreSetter : RowOp → Bool
  | RowOp.opSetparent _ => true
  | RowOp.opSetdata _ => true
  | RowOp.opSetkeymap _ => true
  | _ => false

/-- The state of the row after each operation, read off from the field
assignments of the corresponding C function: the read operations
(`BaseRow_getitem`, `BaseRow_subscript_impl`, `BaseRow_iter`,
`BaseRow_length`, `BaseRow_hash`, the getters, `BaseRow_reduce`) never
assign a struct slot; `BaseRow_setparent`, `BaseRow_setrow` and
`BaseRow_setkeymap` each replace one slot. -/
def rowPost (r : BaseRow) : RowOp → BaseRow
  | RowOp.opGetitem _ => r
  | RowOp.opSubscript _ => r
  | RowOp.opIter => r
  | RowOp.opLength => r
  | RowOp.opHash => r
  | RowOp.opEquals _ => r
  | RowOp.opGetparent => r
  | RowOp.opGetdata => r
  | RowOp.opGetkeymap => r
  | RowOp.opReduce => r
  | RowOp.opSetparent m => { r with parent := m }
  | RowOp.opSetdata vs => { r with row := vs }
  | RowOp.opSetkeymap km => { r with keymap := km }

/-
Concrete fixtures used by witnesses and counterexamples.
-/

/-- A processor that increments integers and keeps other scalars. -/
def succProc : Proc := fun v =>
  match v with
  | PyVal.int n => Except.ok (PyVal.int (n + 1))
  | w => Except.ok w

/-- A processor that always fails with a domain error. -/
def failProc : Proc := fun _ => Except.error (PyErr.otherError 7)

/-- A Metadata handle whose fallback always misses (raises `KeyError`). -/
def mdMiss : ResultMetaData := ⟨fun k => Except.error (PyErr.keyError k)⟩

/-- A Metadata handle whose fallback fails with a non-`KeyError` error. -/
def mdOther : ResultMetaData := ⟨fun _ => Except.error (PyErr.otherError 3)⟩

/-- A two-column row with one uniquely keyed column. -/
def rowA : BaseRow :=
  ⟨mdMiss, [PyVal.int 1, PyVal.str "A"],
   [(PyVal.str "x", ⟨some 0, PyVal.obj 0, PyVal.str "x"⟩)]⟩

/-- A row identical to `rowA` in values but built with a different Metadata
handle and a different keymap. -/
def rowB : BaseRow := ⟨mdOther, [PyVal.int 1, PyVal.str "A"], []⟩

/-- A row whose keymap carries ambiguous records: under the key `"zz"` an
ASCII context `"y"`, under the non-ASCII key `"é"` the same context, and
under `"ua"` a non-ASCII context. -/
def rowAmb : BaseRow :=
  ⟨mdMiss, [PyVal.int 10, PyVal.int 20],
   [(PyVal.str "zz", ⟨Option.none, PyVal.obj 1, PyVal.str "y"⟩),
    (PyVal.str "é", ⟨Option.none, PyVal.obj 1, PyVal.str "y"⟩),
    (PyVal.str "ua", ⟨Option.none, PyVal.obj 1, PyVal.str "é"⟩)]⟩

/-- A `__setstate__` that restores the value tuple and keymap but leaves the
`parent` slot NULL. -/
def setstateMissingParent : PyVal → Except PyErr RestoredState :=
  fun _ => Except.ok ⟨Option.none, some [PyVal.int 1], some []⟩

/-
Helper lemmas about the construction loop and the projection loop.
-/

theorem applyProcessors_ok_length (ps : List (Option Proc)) :
    ∀ vs ws, applyProcessors ps vs = Except.ok ws → ps.length = vs.length →
      ws.length = vs.length := by
  induction ps with
  | nil =>
    intro vs ws h hl
    cases vs with
    | nil =>
      simp only [applyProcessors, Except.ok.injEq] at h
      simp [← h]
    | cons v vs => simp at hl
  | cons p ps ih =>
    intro vs ws h hl
    cases vs with
    | nil => simp at hl
    | cons v vs =>
      simp only [List.length_cons, Nat.add_right_cancel_iff] at hl
      cases p with
      | none =>
        cases hrec : applyProcessors ps vs with
        | error e => simp [applyProcessors, hrec] at h
        | ok ws2 =>
          simp only [applyProcessors, hrec, Except.ok.injEq] at h
          subst h
          simp [ih vs ws2 hrec hl]
      | some f =>
        cases hfv : f v with
        | error e => simp [applyProcessors, hfv] at h
        | ok w =>
          cases hrec : applyProcessors ps vs with
          | error e => simp [applyProcessors, hfv, hrec] at h
          | ok ws2 =>
            simp only [applyProcessors, hfv, hrec, Except.ok.injEq] at h
            subst h
            simp [ih vs ws2 hrec hl]

theorem applyProcessors_ok_get (ps : List (Option Proc)) :
    ∀ vs ws, applyProcessors ps vs = Except.ok ws →
    ∀ i, i < vs.length → i < ps.length →
      (∀ f, ps.getD i Option.none = some f →
        f (vs.getD i PyVal.none) = Except.ok (ws.getD i PyVal.none)) ∧
      (ps.getD i Option.none = Option.none →
        ws.getD i PyVal.none = vs.getD i PyVal.none) := by
  induction ps with
  | nil => intro vs ws h i h1 h2; simp at h2
  | cons p ps ih =>
    intro vs ws h i h1 h2
    cases vs with
    | nil => simp at h1
    | cons v vs =>
      cases p with
      | none =>
        cases hrec : applyProcessors ps vs with
        | error e => simp [applyProcessors, hrec] at h
        | ok ws2 =>
          simp only [applyProcessors, hrec, Except.ok.injEq] at h
          subst h
          cases i with
          | zero =>
            constructor
            · intro f hf; simp at hf
            · intro _; simp
          | succ j =>
            have h1j : j < vs.length := by simpa using h1
            have h2j : j < ps.length := by simpa using h2
            simpa using ih vs ws2 hrec j h1j h2j
      | some f =>
        cases hfv : f v with
        | error e => simp [applyProcessors, hfv] at h
        | ok w =>
          cases hrec : applyProcessors ps vs with
          | error e => simp [applyProcessors, hfv, hrec] at h
          | ok ws2 =>
            simp only [applyProcessors, hfv, hrec, Except.ok.injEq] at h
            subst h
            cases i with
            | zero =>
              constructor
              · intro g hg
                simp only [List.getD_cons_zero, Option.some.injEq] at hg
                subst hg
                simpa using hfv
              · intro hg; simp at hg
            | succ j =>
              have h1j : j < vs.length := by simpa using h1
              have h2j : j < ps.length := by simpa using h2
              simpa using ih vs ws2 hrec j h1j h2j

theorem applyProcessors_all_ok (ps : List (Option Proc)) :
    ∀ vs, ps.length = vs.length →
    (∀ i, i < vs.length →
      procOk (ps.getD i Option.none) (vs.getD i PyVal.none) = true) →
    ∃ ws, applyProcessors ps vs = Except.ok ws := by
  induction ps with
  | nil =>
    intro vs hl _
    cases vs with
    | nil => exact ⟨[], rfl⟩
    | cons v vs => simp at hl
  | cons p ps ih =>
    intro vs hl h
    cases vs with
    | nil => simp at hl
    | cons v vs =>
      simp only [List.length_cons, Nat.add_right_cancel_iff] at hl
      have hrest : ∀ i, i < vs.length →
          procOk (ps.getD i Option.none) (vs.getD i PyVal.none) = true := by
        intro i hi
        have := h (i + 1) (by simpa using Nat.succ_lt_succ hi)
        simpa using this
      obtain ⟨ws, hws⟩ := ih vs hl hrest
      cases p with
      | none => exact ⟨v :: ws, by simp [applyProcessors, hws]⟩
      | some f =>
        have h0 := h 0 (by simp)
        simp only [List.getD_cons_zero, procOk] at h0
        cases hfv : f v with
        | error e => rw [hfv] at h0; simp [Except.isOk, Except.toBool] at h0
        | ok w => exact ⟨w :: ws, by simp [applyProcessors, hfv, hws]⟩

theorem applyProcessors_first_error (ps : List (Option Proc)) :
    ∀ vs i f e, i < vs.length → i < ps.length →
    ps.getD i Option.none = some f →
    f (vs.getD i PyVal.none) = Except.error e →
    (∀ j, j < i → procOk (ps.getD j Option.none) (vs.getD j PyVal.none) = true) →
    applyProcessors ps vs = Except.error e := by
  induction ps with
  | nil => intro vs i f e h1 h2 _ _ _; simp at h2
  | cons p ps ih =>
    intro vs i f e h1 h2 hf hfe hpre
    cases vs with
    | nil => simp at h1
    | cons v vs =>
      cases i with
      | zero =>
        simp only [List.getD_cons_zero] at hf
        subst hf
        simp only [List.getD_cons_zero] at hfe
        simp [applyProcessors, hfe]
      | succ j =>
        have h1j : j < vs.length := by simpa using h1
        have h2j : j < ps.length := by simpa using h2
        have hfj : ps.getD j Option.none = some f := by simpa using hf
        have hfej : f (vs.getD j PyVal.none) = Except.error e := by simpa using hfe
        have hprej : ∀ l, l < j →
            procOk (ps.getD l Option.none) (vs.getD l PyVal.none) = true := by
          intro l hl
          have := hpre (l + 1) (Nat.succ_lt_succ hl)
          simpa using this
        have hrec := ih vs j f e h1j h2j hfj hfej hprej
        have h0 := hpre 0 (Nat.succ_pos j)
        cases p with
        | none => simp [applyProcessors, hrec]
        | some g =>
          simp only [List.getD_cons_zero, procOk] at h0
          cases hgv : g v with
          | error e2 => rw [hgv] at h0; simp [Except.isOk, Except.toBool] at h0
          | ok w => simp [applyProcessors, hgv, hrec]

theorem tuplegetter_loop_all_ok (r : BaseRow) :
    ∀ ks, (∀ k ∈ ks, (BaseRow_subscript_impl r k).isOk = true) →
      ∃ vs, tuplegetter_loop r ks = Except.ok vs := by
  intro ks
  induction ks with
  | nil => intro _; exact ⟨[], rfl⟩
  | cons k ks ih =>
    intro h
    have hk := h k (List.mem_cons_self k ks)
    cases hkv : BaseRow_subscript_impl r k with
    | error e => rw [hkv] at hk; simp [Except.isOk, Except.toBool] at hk
    | ok v =>
      obtain ⟨vs, hvs⟩ := ih (fun k2 hk2 => h k2 (List.mem_cons_of_mem k hk2))
      exact ⟨v :: vs, by simp [tuplegetter_loop, hkv, hvs]⟩

theorem tuplegetter_loop_ok_get (r : BaseRow) :
    ∀ ks vs, tuplegetter_loop r ks = Except.ok vs →
      vs.length = ks.length ∧
      ∀ i, i < ks.length →
        BaseRow_subscript_impl r (ks.getD i PyVal.none) =
          Except.ok (vs.getD i PyVal.none) := by
  intro ks
  induction ks with
  | nil =>
    intro vs h
    simp only [tuplegetter_loop, Except.ok.injEq] at h
    subst h
    exact ⟨rfl, by intro i hi; simp at hi⟩
  | cons k ks ih =>
    intro vs h
    cases hkv : BaseRow_subscript_impl r k with
    | error e => simp [tuplegetter_loop, hkv] at h
    | ok v =>
      cases hrec : tuplegetter_loop r ks with
      | error e => simp [tuplegetter_loop, hkv, hrec] at h
      | ok vs2 =>
        simp only [tuplegetter_loop, hkv, hrec, Except.ok.injEq] at h
        subst h
        obtain ⟨hlen, hget⟩ := ih vs2 hrec
        refine ⟨by simp [hlen], ?_⟩
        intro i hi
        cases i with
        | zero => simpa using hkv
        | succ j =>
          have hj : j < ks.length := by simpa using hi
          simpa using hget j hj

theorem tuplegetter_loop_first_error (r : BaseRow) :
    ∀ ks i e, i < ks.length →
      BaseRow_subscript_impl r (ks.getD i PyVal.none) = Except.error e →
      (∀ j, j < i → (BaseRow_subscript_impl r (ks.getD j PyVal.none)).isOk = true) →
      tuplegetter_loop r ks = Except.error e := by
  intro ks
  induction ks with
  | nil => intro i e h1 _ _; simp at h1
  | cons k ks ih =>
    intro i e h1 he hpre
    cases i with
    | zero =>
      simp only [List.getD_cons_zero] at he
      simp [tuplegetter_loop, he]
    | succ j =>
      have h1j : j < ks.length := by simpa using h1
      have hej : BaseRow_subscript_impl r (ks.getD j PyVal.none) = Except.error e := by
        simpa using he
      have hprej : ∀ l, l < j →
          (BaseRow_subscript_impl r (ks.getD l PyVal.none)).isOk = true := by
        intro l hl
        have := hpre (l + 1) (Nat.succ_lt_succ hl)
        simpa using this
      have hrec := ih j e h1j hej hprej
      have h0 := hpre 0 (Nat.succ_pos j)
      simp only [List.getD_cons_zero] at h0
      cases hkv : BaseRow_subscript_impl r k with
      | error e2 => rw [hkv] at h0; simp [Except.isOk, Except.toBool] at h0
      | ok v => simp [tuplegetter_loop, hkv, hrec]

/-
Claim theorems.
-/

/-- C1: for equal-length processor and raw-value lists, construction
succeeds whenever every present processor succeeds; on success the value at
position `i` is `processors[i](rawValues[i])` when the processor is present
and `rawValues[i]` unchanged when it is absent; the first processor failure
aborts construction and propagates its exception verbatim. -/
theorem baseRowInit_applies_processors (m : ResultMetaData) (km : KeyMap)
    (processors : List (Option Proc)) (raw : List PyVal)
    (h : raw.length = processors.length) :
    ((∀ i, i < raw.length →
        procOk (processors.getD i Option.none) (raw.getD i PyVal.none) = true) →
      ∃ r, BaseRow_init m processors km raw = Except.ok r) ∧
    (∀ r, BaseRow_init m processors km raw = Except.ok r →
      r.row.length = raw.length ∧
      (∀ i, i < raw.length →
        (∀ f, processors.getD i Option.none = some f →
          f (raw.getD i PyVal.none) = Except.ok (r.row.getD i PyVal.none)) ∧
        (processors.getD i Option.none = Option.none →
          r.row.getD i PyVal.none = raw.getD i PyVal.none))) ∧
    (∀ i f e, i < raw.length →
      processors.getD i Option.none = some f →
      f (raw.getD i PyVal.none) = Except.error e →
      (∀ j, j < i →
        procOk (processors.getD j Option.none) (raw.getD j PyVal.none) = true) →
      BaseRow_init m processors km raw = Except.error e) := by
  refine ⟨?_, ?_, ?_⟩
  · intro hall
    obtain ⟨ws, hws⟩ := applyProcessors_all_ok processors raw h.symm hall
    exact ⟨⟨m, ws, km⟩, by simp [BaseRow_init, h, hws]⟩
  · intro r hr
    unfold BaseRow_init at hr
    rw [if_pos h] at hr
    cases hap : applyProcessors processors raw with
    | error e => rw [hap] at hr; cases hr
    | ok ws =>
      rw [hap] at hr
      cases hr
      constructor
      · exact applyProcessors_ok_length processors raw ws hap h.symm
      · intro i hi
        exact applyProcessors_ok_get processors raw ws hap i hi (h ▸ hi)
  · intro i f e hi hf hfe hpre
    have hap := applyProcessors_first_error processors raw i f e hi (h ▸ hi) hf hfe hpre
    unfold BaseRow_init
    rw [if_pos h, hap]

/-- Witness for C1: a two-column construction with an absent processor at
position 0 and an integer-successor processor at position 1. -/
theorem baseRowInit_applies_processors_witness :
    ∃ r, BaseRow_init mdMiss [Option.none, some succProc] []
      [PyVal.str "a", PyVal.int 1] = Except.ok r :=
  (baseRowInit_applies_processors mdMiss [] [Option.none, some succProc]
    [PyVal.str "a", PyVal.int 1] rfl).1 (by decide)

/-- C2: two rows with identical value sequences are structurally equal and
share a hash, whatever Metadata handle and keymap each was built with:
hash and equality read the value tuple only. -/
theorem rowEqualityHashValueOnly (a b : BaseRow) (h : a.row = b.row) :
    BaseRow_equals a b = true ∧ BaseRow_hash a = BaseRow_hash b := by
  constructor
  · simp [BaseRow_equals, h]
  · simp [BaseRow_hash, h]

/-- Witness for C2: `rowA` and `rowB` carry the same values but distinct
Metadata handles and distinct keymaps. -/
theorem rowEqualityHashValueOnly_witness :
    BaseRow_equals rowA rowB = true ∧ BaseRow_hash rowA = BaseRow_hash rowB :=
  rowEqualityHashValueOnly rowA rowB rfl

/-- C5: when the raw-value count differs from the processor count,
construction fails with the `RuntimeError` carrying both lengths — no row
value is ever produced. -/
theorem baseRowInit_arity_mismatch (m : ResultMetaData) (km : KeyMap)
    (processors : List (Option Proc)) (raw : List PyVal)
    (h : raw.length ≠ processors.length) :
    BaseRow_init m processors km raw =
      Except.error (PyErr.runtimeError
        ("number of values in row (" ++ toString raw.length ++
         ") differ from number of column processors (" ++
         toString processors.length ++ ")")) := by
  unfold BaseRow_init
  rw [if_neg h]

/-- Witness for C5: one raw value against two processors. -/
theorem baseRowInit_arity_mismatch_witness :
    BaseRow_init mdMiss [Option.none, some succProc] [] [PyVal.int 1] =
      Except.error (PyErr.runtimeError
        "number of values in row (1) differ from number of column processors (2)") :=
  baseRowInit_arity_mismatch mdMiss [] [Option.none, some succProc]
    [PyVal.int 1] (by decide)

/-- C3 counterexample: for the key `"zz"` resolving to an ambiguous record
with ambiguity-context `"y"`, the failure message embeds only the context —
the key's display form `"zz"` does not occur in it, refuting the claim that
the message embeds both. -/
theorem ambiguousMessageOmitsKey_cex :
    BaseRow_getitem_by_object rowAmb (PyVal.str "zz") =
      Except.error (PyErr.invalidRequestError
        "Ambiguous column name 'y' in result set column descriptions") ∧
    strEmbeds (pyStr (PyVal.str "zz"))
      "Ambiguous column name 'y' in result set column descriptions" = false := by
  constructor
  · decide
  · decide

/-- C3 amended: when the resolved record carries the ambiguous sentinel,
keyed access never returns a value; if the record's ambiguity-context
renders to ASCII the failure is the `InvalidRequestError` whose message
embeds `str(record[2])` (the ambiguity-context), truncated to 200
characters — the lookup key itself is not part of the message. -/
theorem getByKeyAmbiguousAlwaysFails (r : BaseRow) (key : PyVal) (rcd : Record)
    (h1 : dictGet r.keymap key = some rcd) (h2 : rcd.index = Option.none) :
    (∀ v, BaseRow_getitem_by_object r key ≠ Except.ok v) ∧
    (isAsciiStr (pyStr rcd.context) = true →
      BaseRow_getitem_by_object r key =
        Except.error (PyErr.invalidRequestError
          (ambiguousMessage (pyStr rcd.context)))) := by
  have hres : BaseRow_getitem_by_object r key = resolveRecord r rcd := by
    simp [BaseRow_getitem_by_object, h1]
  constructor
  · intro v
    rw [hres]
    unfold resolveRecord
    rw [h2]
    by_cases hA : isAsciiStr (pyStr rcd.context) <;> simp [asciiEncode, hA]
  · intro hA
    rw [hres]
    unfold resolveRecord
    rw [h2]
    simp [asciiEncode, hA]

/-- Witness for the amended C3: the ambiguous key `"zz"` of `rowAmb`. -/
theorem getByKeyAmbiguousAlwaysFails_witness :
    BaseRow_getitem_by_object rowAmb (PyVal.str "zz") =
      Except.error (PyErr.invalidRequestError
        (ambiguousMessage (pyStr (PyVal.str "y")))) :=
  (getByKeyAmbiguousAlwaysFails rowAmb (PyVal.str "zz")
    ⟨Option.none, PyVal.obj 1, PyVal.str "y"⟩ (by decide) rfl).2 (by decide)

/-- C9 counterexample: the renderability check applies to the record's
ambiguity-context, not to the lookup key — the non-ASCII key `"é"` whose
record carries the ASCII context `"y"` still fails with the ambiguity error
(and a non-blank message), not with an encoding error. -/
theorem encodingCheckIgnoresKey_cex :
    isAsciiStr (pyStr (PyVal.str "é")) = false ∧
    BaseRow_getitem_by_object rowAmb (PyVal.str "é") =
      Except.error (PyErr.invalidRequestError
        "Ambiguous column name 'y' in result set column descriptions") := by
  constructor
  · decide
  · decide

/-- C9 amended: when an ambiguous record's ambiguity-context does not
render to ASCII, the diagnostic rendering itself fails and the
`UnicodeEncodeError` surfaces to the caller — no ambiguity error with a
blank message is produced. -/
theorem ambiguousContextNotRenderable (r : BaseRow) (key : PyVal) (rcd : Record)
    (h1 : dictGet r.keymap key = some rcd) (h2 : rcd.index = Option.none)
    (h3 : isAsciiStr (pyStr rcd.context) = false) :
    BaseRow_getitem_by_object r key = Except.error PyErr.unicodeEncodeError := by
  have hres : BaseRow_getitem_by_object r key = resolveRecord r rcd := by
    simp [BaseRow_getitem_by_object, h1]
  rw [hres]
  unfold resolveRecord
  rw [h2]
  simp [asciiEncode, h3]

/-- Witness for the amended C9: the key `"ua"` of `rowAmb`, whose record
carries the non-ASCII context `"é"`. -/
theorem ambiguousContextNotRenderable_witness :
    BaseRow_getitem_by_object rowAmb (PyVal.str "ua") =
      Except.error PyErr.unicodeEncodeError :=
  ambiguousContextNotRenderable rowAmb (PyVal.str "ua")
    ⟨Option.none, PyVal.obj 1, PyVal.str "é"⟩ (by decide) rfl (by decide)

/-- C4: applying a projector yields exactly the keyed lookups of its stored
keys in order — it succeeds when every lookup succeeds, each output slot
`i` equals the lookup of key `i`, and the first failing lookup aborts the
whole projection with that same error (no partial tuple escapes). -/
theorem tuplegetterProjectsInOrder (keys : List PyVal) (r : BaseRow) :
    ((∀ k ∈ keys, (BaseRow_subscript_impl r k).isOk = true) →
      ∃ vs, tuplegetter_call (tuplegetter_new keys) r = Except.ok vs) ∧
    (∀ vs, tuplegetter_call (tuplegetter_new keys) r = Except.ok vs →
      vs.length = keys.length ∧
      ∀ i, i < keys.length →
        BaseRow_subscript_impl r (keys.getD i PyVal.none) =
          Except.ok (vs.getD i PyVal.none)) ∧
    (∀ i e, i < keys.length →
      BaseRow_subscript_impl r (keys.getD i PyVal.none) = Except.error e →
      (∀ j, j < i → (BaseRow_subscript_impl r (keys.getD j PyVal.none)).isOk = true) →
      tuplegetter_call (tuplegetter_new keys) r = Except.error e) := by
  refine ⟨?_, ?_, ?_⟩
  · intro h
    exact tuplegetter_loop_all_ok r keys h
  · intro vs h
    exact tuplegetter_loop_ok_get r keys vs h
  · intro i e h1 h2 h3
    exact tuplegetter_loop_first_error r keys i e h1 h2 h3

/-- Witness for C4: projecting the unambiguous key `"x"` and the position
`1` out of `rowA`. -/
theorem tuplegetterProjectsInOrder_witness :
    ∃ vs, tuplegetter_call (tuplegetter_new [PyVal.str "x", PyVal.int 1]) rowA =
      Except.ok vs :=
  (tuplegetterProjectsInOrder [PyVal.str "x", PyVal.int 1] rowA).1 (by decide)

/-- C10: projector construction performs no nonemptiness check — the
projector built from the empty key list has arity 0, and applying it to any
row returns the empty tuple without performing any keyed lookup. -/
theorem tuplegetterAcceptsEmpty :
    (tuplegetter_new []).nitems = 0 ∧
    ∀ r : BaseRow, tuplegetter_call (tuplegetter_new []) r = Except.ok [] :=
  ⟨rfl, fun _ => rfl⟩

/-- C6 counterexample: the `_data` restore setter (`BaseRow_setrow`) is
callable on a constructed row and replaces its value tuple, so not every
subsequently callable operation leaves the Row's state unchanged. -/
theorem restoreSetterMutates_cex :
    (rowPost rowA (RowOp.opSetdata [PyVal.int 3])).row = [PyVal.int 3] ∧
    rowA.row = [PyVal.int 1, PyVal.str "A"] ∧
    (rowPost rowA (RowOp.opSetdata [PyVal.int 3])).row ≠ rowA.row := by
  refine ⟨rfl, rfl, by decide⟩

/-- C6 amended: every public operation other than the three getset restore
setters — positional access, keyed access, iteration, length, hash,
equality, the getters and the serialization export — leaves the Row's
value tuple, Metadata reference and keymap reference unchanged; the
`_parent`/`_data`/`_keymap` setters remain callable after construction and
replace the corresponding field. -/
theorem readOpsPreserveState (r : BaseRow) (op : RowOp)
    (h : op.isRestoreSetter = false) : rowPost r op = r := by
  cases op <;> first
    | rfl
    | simp [RowOp.isRestoreSetter] at h

/-- Witness for the amended C6: hashing preserves `rowA`. -/
theorem readOpsPreserveState_witness : rowPost rowA RowOp.opHash = rowA :=
  readOpsPreserveState rowA RowOp.opHash rfl

/-- C7 counterexample: for the non-ASCII attribute name `"é"` the keyed
lookup fails with `KeyError`, yet the remap itself fails while encoding the
name: the caller sees the `UnicodeEncodeError`, not an attribute-not-found
error carrying the key. -/
theorem getattroNonAsciiRemapFails_cex :
    BaseRow_subscript_impl rowA (PyVal.str "é") =
      Except.error (PyErr.keyError (PyVal.str "é")) ∧
    BaseRow_getattro rowA "é" = Except.error PyErr.unicodeEncodeError := by
  constructor
  · decide
  · decide

/-- C7 amended: for an attribute name not matching a direct field, a
`KeyError` from the keyed lookup is remapped to an `AttributeError`
embedding the name (truncated to 200 characters) provided the name renders
to ASCII — for a non-ASCII name the remap itself fails with the
`UnicodeEncodeError`; any non-`KeyError` failure passes through unchanged,
and a successful keyed lookup returns its value. -/
theorem getattroKeyErrorRemap (r : BaseRow) (nm : String)
    (h : nm ∉ directFields) :
    (∀ k, BaseRow_subscript_impl r (PyVal.str nm) =
        Except.error (PyErr.keyError k) →
      (isAsciiStr nm = true →
        BaseRow_getattro r nm =
          Except.error (PyErr.attributeError (attrErrMsg nm))) ∧
      (isAsciiStr nm = false →
        BaseRow_getattro r nm = Except.error PyErr.unicodeEncodeError)) ∧
    (∀ e, BaseRow_subscript_impl r (PyVal.str nm) = Except.error e →
      (∀ k, e ≠ PyErr.keyError k) →
      BaseRow_getattro r nm = Except.error e) ∧
    (∀ v, BaseRow_subscript_impl r (PyVal.str nm) = Except.ok v →
      BaseRow_getattro r nm = Except.ok (GetattroResult.column v)) := by
  refine ⟨?_, ?_, ?_⟩
  · intro k hk
    constructor
    · intro hA
      simp [BaseRow_getattro, h, hk, asciiEncode, hA, attrErrMsg]
    · intro hA
      simp [BaseRow_getattro, h, hk, asciiEncode, hA]
  · intro e he hne
    cases e with
    | keyError k => exact absurd rfl (hne k)
    | runtimeError s => simp [BaseRow_getattro, h, he]
    | typeError s => simp [BaseRow_getattro, h, he]
    | indexError s => simp [BaseRow_getattro, h, he]
    | invalidRequestError s => simp [BaseRow_getattro, h, he]
    | attributeError s => simp [BaseRow_getattro, h, he]
    | unicodeEncodeError => simp [BaseRow_getattro, h, he]
    | otherError t => simp [BaseRow_getattro, h, he]
  · intro v hv
    simp [BaseRow_getattro, h, hv]

/-- Witness for the amended C7: the missing ASCII name `"q"` on `rowA` is
remapped to the attribute-not-found error embedding `"q"`. -/
theorem getattroKeyErrorRemap_witness :
    BaseRow_getattro rowA "q" =
      Except.error (PyErr.attributeError (attrErrMsg "q")) :=
  ((getattroKeyErrorRemap rowA "q" (by decide)).1 (PyVal.str "q")
    (by decide)).1 (by decide)

/-- C8: reconstruction validates the three restored fields — if
`__setstate__` succeeded but left any of `parent`, `row`, `keymap` unset,
the reconstructor fails with the `RuntimeError` naming the obligation, and
every instance it does return has all three fields restored. -/
theorem reconstructorRequiresFields
    (setstate : PyVal → Except PyErr RestoredState) (state : PyVal) :
    (∀ st, setstate state = Except.ok st →
      (st.parent = Option.none ∨ st.row = Option.none ∨
        st.keymap = Option.none) →
      safe_rowproxy_reconstructor setstate state =
        Except.error (PyErr.runtimeError reconstructErrMsg)) ∧
    (∀ r, safe_rowproxy_reconstructor setstate state = Except.ok r →
      ∃ st, setstate state = Except.ok st ∧ st.parent = some r.parent ∧
        st.row = some r.row ∧ st.keymap = some r.keymap) := by
  constructor
  · intro st hst hmiss
    cases hp : st.parent with
    | none => simp [safe_rowproxy_reconstructor, hst, hp]
    | some p =>
      cases hrw : st.row with
      | none => simp [safe_rowproxy_reconstructor, hst, hp, hrw]
      | some rr =>
        cases hk : st.keymap with
        | none => simp [safe_rowproxy_reconstructor, hst, hp, hrw, hk]
        | some kk =>
          rcases hmiss with hm | hm | hm
          · rw [hp] at hm; cases hm
          · rw [hrw] at hm; cases hm
          · rw [hk] at hm; cases hm
  · intro r hr
    unfold safe_rowproxy_reconstructor at hr
    cases hss : setstate state with
    | error e => rw [hss] at hr; cases hr
    | ok st =>
      rw [hss] at hr
      cases hp : st.parent with
      | none => simp only [hp] at hr; cases hr
      | some p =>
        cases hrw : st.row with
        | none => simp only [hp, hrw] at hr; cases hr
        | some rr =>
          cases hk : st.keymap with
          | none => simp only [hp, hrw, hk] at hr; cases hr
          | some kk =>
            simp only [hp, hrw, hk, Except.ok.injEq] at hr
            subst hr
            exact ⟨st, rfl, hp, hrw, hk⟩

/-- Witness for C8: a `__setstate__` that never restores `parent`. -/
theorem reconstructorRequiresFields_witness :
    safe_rowproxy_reconstructor setstateMissingParent (PyVal.str "s") =
      Except.error (PyErr.runtimeError reconstructErrMsg) :=
  (reconstructorRequiresFields setstateMissingParent (PyVal.str "s")).1
    ⟨Option.none, some [PyVal.int 1], some []⟩ rfl (Or.inl rfl)
